import Mathlib

/-
  Verification of the daemonWallet security core against its design spec.

  Shallow embedding of:
  - DaemonStateManager (packages/daemon/src/core/daemon-state.js, also bundled
    in packages/daemon/src/session.js part of the sources)
  - SessionManager (packages/daemon/src/session.js) and the configuration used
    by EnhancedDaemonService (packages/daemon/src/enhanced-daemon.js)
  - CryptoUtils.decrypt (packages/core/src/crypto.js) modelled symbolically as
    an AEAD envelope
  - Keystore (packages/core/src/keystore.js, extended account-management
    variant) with the ethers library treated as an external oracle
  - ValidationPipeline (packages/daemon/src/core/validation-pipeline.js)
  - NativeMessaging framing (packages/daemon/src/messaging.js)

  JavaScript specifics that matter are carried over explicitly: Map insertion
  order, truthiness of values, Node setTimeout delay coercion, and the
  `String.prototype.includes` check used to classify decryption errors.
-/

namespace DaemonWallet

deriving instance DecidableEq for Except

/-- Does the needle match at the head of the haystack? -/
def matchesAt : List Char → List Char → Bool
  | [], _ => true
  | _ :: _, [] => false
  | n :: ns, h :: hs => n == h && matchesAt ns hs

/-- Does the needle occur anywhere in the haystack? -/
def hasSub (needle : List Char) : List Char → Bool
  | [] => matchesAt needle []
  | h :: hs => matchesAt needle (h :: hs) || hasSub needle hs

/-- JavaScript `hay.includes(needle)`: true when the needle occurs as a
substring of the haystack. -/
def jsIncludes (hay needle : String) : Bool :=
  hasSub needle.data hay.data

/-- JavaScript `s.toLowerCase()` on the ASCII range, as used for address
normalisation. -/
def lowerStr (s : String) : String :=
  String.mk (s.data.map Char.toLower)

/-- JavaScript `s.startsWith(p)`. -/
def jsStartsWith (s p : String) : Bool :=
  matchesAt p.data s.data

/-- The number of parts of JavaScript `s.split(sep)` for a single-character
separator: one more than the number of separator occurrences. -/
def jsSplitCount (s : String) (sep : Char) : Nat :=
  (s.data.filter (fun c => c == sep)).length + 1

/-- JavaScript `s.trim()` restricted to the space character (the only
whitespace relevant to mnemonic secrets). -/
def jsTrim (s : String) : String :=
  String.mk (((s.data.dropWhile (fun c => c == ' ')).reverse.dropWhile
    (fun c => c == ' ')).reverse)

/-! ## DaemonStateManager (daemon-state.js) -/

/-- The five DAEMON_STATES values. -/
inductive DaemonState
  | starting
  | ready
  | locked
  | unlocked
  | error
deriving DecidableEq, Repr

/-- The metadata object passed to `transition`; the only field the claims
inspect is the circuit-breaker flag set by `handleError`. -/
structure TransitionMeta where
  circuitBreakerTripped : Bool
deriving DecidableEq, Repr

/-- One entry of `stateHistory`: `{from, to, timestamp, metadata}`. -/
structure HistoryEntry where
  src : DaemonState
  dst : DaemonState
  timestamp : Nat
  meta : TransitionMeta
deriving DecidableEq, Repr

/-- The mutable fields of DaemonStateManager. -/
structure StateManager where
  currentState : DaemonState
  previousState : Option DaemonState
  stateHistory : List HistoryEntry
  errorCount : Nat
  maxErrors : Nat
  metadata : TransitionMeta
deriving DecidableEq, Repr

/-- Constructor state: STARTING, empty history, zero errors, maxErrors 5. -/
def dsmInit : StateManager :=
  { currentState := .starting
    previousState := none
    stateHistory := []
    errorCount := 0
    maxErrors := 5
    metadata := ⟨false⟩ }

/-- `canTransitionTo`: the allowed-transition table. -/
def canTransitionTo (s : StateManager) (newState : DaemonState) : Bool :=
  match s.currentState with
  | .starting => [DaemonState.ready, DaemonState.error].contains newState
  | .ready => [DaemonState.locked, DaemonState.error].contains newState
  | .locked => [DaemonState.unlocked, DaemonState.error, DaemonState.ready].contains newState
  | .unlocked => [DaemonState.locked, DaemonState.error, DaemonState.ready].contains newState
  | .error => [DaemonState.starting, DaemonState.ready].contains newState

/-- `transition(newState, metadata)`: rejects (returns false, no mutation) on a
disallowed edge; otherwise updates current/previous state, pushes a history
entry (shifting the oldest out when the list exceeds 10), stores the metadata,
resets the error counter on a non-ERROR target and increments it on ERROR. -/
def transition (s : StateManager) (newState : DaemonState) (meta : TransitionMeta)
    (now : Nat) : Bool × StateManager :=
  if !canTransitionTo s newState then (false, s)
  else
    let pushed := s.stateHistory ++ [⟨s.currentState, newState, now, meta⟩]
    let hist := if 10 < pushed.length then pushed.tail else pushed
    let ec := if newState == DaemonState.error then s.errorCount + 1 else 0
    (true,
      { s with
        previousState := some s.currentState
        currentState := newState
        metadata := meta
        stateHistory := hist
        errorCount := ec })

/-- `handleError(error, context)`: when the counter has reached `maxErrors`,
transitions to ERROR with `circuitBreakerTripped: true`; otherwise transitions
to ERROR with plain metadata. -/
def handleError (s : StateManager) (now : Nat) : StateManager :=
  if s.maxErrors ≤ s.errorCount then
    (transition s DaemonState.error ⟨true⟩ now).2
  else
    (transition s DaemonState.error ⟨false⟩ now).2

/-- The operations a caller can perform on a DaemonStateManager. -/
inductive DaemonOp
  | trans (t : DaemonState) (meta : TransitionMeta) (now : Nat)
  | handleErr (now : Nat)

def applyOp (s : StateManager) : DaemonOp → StateManager
  | .trans t m now => (transition s t m now).2
  | .handleErr now => handleError s now

def runOps (s : StateManager) (ops : List DaemonOp) : StateManager :=
  ops.foldl applyOp s

/-- Reachability invariant of the error counter: in ERROR it is at most 1, and
outside ERROR it is 0 (every successful transition to a non-ERROR state resets
it, and ERROR to ERROR is not an allowed edge). -/
def dsmInv (s : StateManager) : Prop :=
  s.maxErrors = 5 ∧
  (s.currentState = DaemonState.error → s.errorCount ≤ 1) ∧
  (s.currentState ≠ DaemonState.error → s.errorCount = 0)

theorem dsmInv_init : dsmInv dsmInit := by
  refine ⟨rfl, ?_, ?_⟩ <;> intro h <;> simp [dsmInit]

theorem dsmInv_transition (s : StateManager) (t : DaemonState) (m : TransitionMeta)
    (now : Nat) (h : dsmInv s) : dsmInv (transition s t m now).2 := by
  obtain ⟨hmax, herr, hok⟩ := h
  unfold transition
  by_cases hc : canTransitionTo s t = true
  · simp only [hc, Bool.not_true, Bool.false_eq_true, if_false]
    by_cases ht : t = DaemonState.error
    · subst ht
      have hcur : s.currentState ≠ DaemonState.error := by
        intro hcur
        unfold canTransitionTo at hc
        rw [hcur] at hc
        simp [List.contains] at hc
      have hzero : s.errorCount = 0 := hok hcur
      refine ⟨hmax, fun _ => ?_, fun hne => ?_⟩
      · simp [hzero]
      · exact absurd rfl hne
    · have hbeq : (t == DaemonState.error) = false := by
        simpa using ht
      refine ⟨hmax, fun h2 => absurd h2 ht, fun _ => ?_⟩
      simp [hbeq]
  · simp only [hc]
    simp only [Bool.not_false, if_true] at *
    exact ⟨hmax, herr, hok⟩

theorem dsmInv_handleError (s : StateManager) (now : Nat) (h : dsmInv s) :
    dsmInv (handleError s now) := by
  unfold handleError
  by_cases hb : s.maxErrors ≤ s.errorCount
  · simp only [hb, if_true]
    exact dsmInv_transition s DaemonState.error ⟨true⟩ now h
  · simp only [hb, if_false]
    exact dsmInv_transition s DaemonState.error ⟨false⟩ now h

theorem dsmInv_applyOp (s : StateManager) (op : DaemonOp) (h : dsmInv s) :
    dsmInv (applyOp s op) := by
  cases op with
  | trans t m now => exact dsmInv_transition s t m now h
  | handleErr now => exact dsmInv_handleError s now h

theorem dsmInv_runOps (ops : List DaemonOp) (s : StateManager) (h : dsmInv s) :
    dsmInv (runOps s ops) := by
  induction ops generalizing s with
  | nil => exact h
  | cons op rest ih => exact ih (applyOp s op) (dsmInv_applyOp s op h)

/-- On a handleError-only run, the breaker branch is never taken, so the
recorded metadata never carries the tripped flag. -/
theorem handleErr_keeps_flag_false (s : StateManager) (now : Nat)
    (h : dsmInv s) (hf : s.metadata.circuitBreakerTripped = false) :
    (handleError s now).metadata.circuitBreakerTripped = false := by
  obtain ⟨hmax, herr, hok⟩ := h
  have hce : s.errorCount ≤ 1 := by
    by_cases hcur : s.currentState = DaemonState.error
    · exact herr hcur
    · simp [hok hcur]
  have hlt : ¬ s.maxErrors ≤ s.errorCount := by omega
  unfold handleError
  simp only [hlt, if_false]
  unfold transition
  by_cases hc : canTransitionTo s DaemonState.error = true
  · simp [hc]
  · simp [hc, hf]

theorem flag_false_runOps (nows : List Nat) (s : StateManager)
    (h : dsmInv s) (hf : s.metadata.circuitBreakerTripped = false) :
    (runOps s (nows.map DaemonOp.handleErr)).metadata.circuitBreakerTripped = false := by
  induction nows generalizing s with
  | nil => exact hf
  | cons n rest ih =>
    exact ih (handleError s n) (dsmInv_handleError s n h)
      (handleErr_keeps_flag_false s n h hf)

/-- Claim C2: the spec says every error routed through handleError increments
the error counter and that reaching the threshold of 5 forces an ERROR
transition flagged circuitBreakerTripped. In the code the counter check runs
before the increment, the increment only happens on a successful transition to
ERROR, ERROR to ERROR is not an allowed edge, and leaving ERROR resets the
counter — so the counter never exceeds 1, the threshold branch is dead code,
and no sequence of handleError calls ever trips the breaker. -/
theorem C2_circuit_breaker_cannot_trip :
    (∀ ops : List DaemonOp, (runOps dsmInit ops).errorCount ≤ 1) ∧
    (∀ nows : List Nat,
      (runOps dsmInit (nows.map DaemonOp.handleErr)).metadata.circuitBreakerTripped
        = false) ∧
    ((runOps dsmInit (List.replicate 6 (DaemonOp.handleErr 0))).errorCount = 1) ∧
    ((runOps dsmInit (List.replicate 6 (DaemonOp.handleErr 0))).metadata.circuitBreakerTripped
        = false) ∧
    (handleError (runOps dsmInit [DaemonOp.handleErr 0]) 1).errorCount
      = (runOps dsmInit [DaemonOp.handleErr 0]).errorCount := by
  refine ⟨?_, ?_, by decide, by decide, by decide⟩
  · intro ops
    have h := dsmInv_runOps ops dsmInit dsmInv_init
    obtain ⟨hmax, herr, hok⟩ := h
    by_cases hcur : (runOps dsmInit ops).currentState = DaemonState.error
    · exact herr hcur
    · simp [hok hcur]
  · intro nows
    exact flag_false_runOps nows dsmInit dsmInv_init rfl

/-- Claim C3: `transition` rejects a disallowed edge without mutating any
field, and on an allowed edge sets previous/current state, appends to the
bounded (≤ 10) history, and sets the error counter to 0 unless the target is
ERROR (where it increments instead). -/
theorem C3_transition_spec (s : StateManager) (t : DaemonState) (m : TransitionMeta)
    (now : Nat) (hlen : s.stateHistory.length ≤ 10) :
    (canTransitionTo s t = false → transition s t m now = (false, s)) ∧
    (canTransitionTo s t = true →
      (transition s t m now).1 = true ∧
      (transition s t m now).2.previousState = some s.currentState ∧
      (transition s t m now).2.currentState = t ∧
      (transition s t m now).2.stateHistory =
        (if 10 < (s.stateHistory ++ [(⟨s.currentState, t, now, m⟩ : HistoryEntry)]).length
         then (s.stateHistory ++ [(⟨s.currentState, t, now, m⟩ : HistoryEntry)]).tail
         else s.stateHistory ++ [(⟨s.currentState, t, now, m⟩ : HistoryEntry)]) ∧
      (transition s t m now).2.stateHistory.length ≤ 10 ∧
      (transition s t m now).2.stateHistory.getLast? =
        some (⟨s.currentState, t, now, m⟩ : HistoryEntry) ∧
      (transition s t m now).2.errorCount =
        (if t = DaemonState.error then s.errorCount + 1 else 0)) := by
  constructor
  · intro hc
    unfold transition
    simp [hc]
  · intro hc
    unfold transition
    simp only [hc, Bool.not_true, Bool.false_eq_true, if_false]
    refine ⟨?_, ?_, ?_, ?_, ?_, ?_, ?_⟩ <;> try trivial
    · by_cases hl : 10 < (s.stateHistory ++ [(⟨s.currentState, t, now, m⟩ : HistoryEntry)]).length
      · simp only [hl, if_true]
        have : (s.stateHistory ++ [(⟨s.currentState, t, now, m⟩ : HistoryEntry)]).tail.length
            = s.stateHistory.length := by
          simp [List.length_tail]
        omega
      · simp only [hl, if_false]
        simp at hl ⊢
        omega
    · by_cases hl : 10 < (s.stateHistory ++ [(⟨s.currentState, t, now, m⟩ : HistoryEntry)]).length
      · simp only [hl, if_true]
        cases hh : s.stateHistory with
        | nil => simp [hh] at hl
        | cons a rest =>
          simp [hh, List.getLast?_concat]
      · simp only [hl, if_false]
        simp [List.getLast?_concat]
    · by_cases ht : t = DaemonState.error
      · subst ht
        simp
      · have hbeq : (t == DaemonState.error) = false := by
          simpa using ht
        simp [hbeq, ht]

/-- The plain metadata object (no breaker flag). -/
def noTrip : TransitionMeta := ⟨false⟩

/-- Witness for C3 at a concrete state: the STARTING to READY edge succeeds
with the stated effects, and STARTING to UNLOCKED is rejected unchanged. -/
theorem C3_transition_spec_witness :
    dsmInit.stateHistory.length ≤ 10 ∧
    transition dsmInit DaemonState.unlocked noTrip 0 = (false, dsmInit) ∧
    (transition dsmInit DaemonState.ready noTrip 0).2.currentState
      = DaemonState.ready := by
  refine ⟨by decide, ?_, ?_⟩
  · exact (C3_transition_spec dsmInit DaemonState.unlocked noTrip 0 (by decide)).1
      (by decide)
  · exact ((C3_transition_spec dsmInit DaemonState.ready noTrip 0 (by decide)).2
      (by decide)).2.2.1

/-! ## SessionManager (session.js) and the EnhancedDaemonService configuration -/

/-- A JavaScript value passed as the SessionManager constructor argument
`unlockTimeout`. EnhancedDaemonService passes the object literal
`{ autoLock: false }` where the constructor expects a number of
milliseconds. -/
inductive JsTimeoutArg
  | num (n : Nat)
  | objAutoLockFalse
deriving DecidableEq, Repr

/-- Node `setTimeout` delay coercion: a non-number argument coerces to NaN and
Node clamps NaN (and any delay below 1) to 1 millisecond. -/
def jsTimeoutMs : JsTimeoutArg → Nat
  | .num n => max n 1
  | .objAutoLockFalse => 1

/-- JavaScript truthiness of the values that can reach
`timeout || this.unlockTimeout`: the number 0 is falsy, any other number and
any object is truthy. -/
def jsTruthy : JsTimeoutArg → Bool
  | .num n => !(n == 0)
  | .objAutoLockFalse => true

/-- The mutable fields of SessionManager. `unlockTimer` holds the absolute
time (ms) at which the pending `setTimeout(() => this.lock(), ...)` callback
fires, or none when no timer is pending. -/
structure Session where
  unlockTimeout : JsTimeoutArg
  isUnlocked : Bool
  activeSessions : Nat
  unlockTimer : Option Nat
  accounts : List String
deriving DecidableEq, Repr

/-- `new SessionManager(unlockTimeout)`. -/
def sessionInit (cfg : JsTimeoutArg) : Session :=
  { unlockTimeout := cfg
    isUnlocked := false
    activeSessions := 0
    unlockTimer := none
    accounts := [] }

/-- `resetUnlockTimer(timeout = null)`: clears any pending timer and schedules
a new `setTimeout(() => this.lock(), timeout || this.unlockTimeout)`. -/
def resetUnlockTimer (s : Session) (timeoutArg : Option JsTimeoutArg) (now : Nat) :
    Session :=
  let arg := match timeoutArg with
    | some a => if jsTruthy a then a else s.unlockTimeout
    | none => s.unlockTimeout
  { s with unlockTimer := some (now + jsTimeoutMs arg) }

/-- `unlock(accounts)`: marks unlocked, caches the account list and resets the
timer (a timer is scheduled unconditionally). -/
def sessionUnlock (s : Session) (accounts : List String) (now : Nat) : Session :=
  resetUnlockTimer { s with isUnlocked := true, accounts := accounts } none now

/-- `lock()`: marks locked, clears the cached accounts and the timer. -/
def sessionLock (s : Session) : Session :=
  { s with isUnlocked := false, accounts := [], unlockTimer := none }

/-- The pending `setTimeout` callback firing at time `now`: runs `lock()` when
a timer is due. -/
def timerFire (s : Session) (now : Nat) : Session :=
  match s.unlockTimer with
  | some due => if due ≤ now then sessionLock s else s
  | none => s

/-- The SessionManager as EnhancedDaemonService constructs it:
`new SessionManager({ autoLock: false })`. -/
def enhancedDaemonSession : Session :=
  sessionInit JsTimeoutArg.objAutoLockFalse

/-- Claim C5: the spec says auto-lock is disabled in the primary daemon
configuration, so an unlocked session persists until an explicit lock. In the
code `{ autoLock: false }` is passed where SessionManager expects a numeric
timeout; `unlock` always schedules `setTimeout(() => this.lock(), ...)`, the
object delay coerces to NaN which Node clamps to 1 ms, so one millisecond
after an unlock (with no further calls) the timer fires and re-locks the
session. -/
theorem C5_enhanced_daemon_autolock_timer_fires :
    (sessionUnlock enhancedDaemonSession ["0xabc"] 0).isUnlocked = true ∧
    (sessionUnlock enhancedDaemonSession ["0xabc"] 0).unlockTimer = some 1 ∧
    (timerFire (sessionUnlock enhancedDaemonSession ["0xabc"] 0) 1).isUnlocked
      = false ∧
    (timerFire (sessionUnlock enhancedDaemonSession ["0xabc"] 0) 1).accounts
      = [] ∧
    (∀ (s : Session) (accounts : List String) (now : Nat),
      (sessionUnlock s accounts now).unlockTimer =
        some (now + jsTimeoutMs s.unlockTimeout)) := by
  refine ⟨by decide, by decide, by decide, by decide, ?_⟩
  intro s accounts now
  rfl

/-! ## CryptoUtils (crypto.js), modelled symbolically

`encrypt(data, password)` produces an AES-256-GCM envelope; `decrypt` rewraps
a GCM authentication failure (wrong key or tampered data, indistinguishable by
design) as an Error whose message is the constant below, and lets every other
failure (malformed envelope fields raising before GCM runs) propagate
unchanged. The envelope is modelled symbolically with the payload kept
structured (the JSON stringify/parse pair around it is the identity on the
values the keystore stores). -/

/-- A JavaScript Error, reduced to its message. -/
structure JsError where
  message : String
deriving DecidableEq, Repr

/-- The message of the rewrapped GCM authentication failure in
`CryptoUtils.decrypt`. -/
def invalidPasswordMsg : String := "Invalid password or corrupted data"

/-- A keystore crypto envelope over payload type A: `enc payload password` is
a well-formed output of `CryptoUtils.encrypt(payload, password)`; `tampered`
is a well-formed envelope whose ciphertext or tag fails GCM authentication
under every key; `malformedEnv msg` is an envelope with missing or invalid
fields, on which buffer or cipher setup raises an error with message `msg`
before GCM authentication runs. -/
inductive Envelope (A : Type)
  | enc (payload : A) (password : String)
  | tampered
  | malformedEnv (msg : String)
deriving DecidableEq, Repr

namespace CryptoUtils

/-- `CryptoUtils.decrypt(encryptedData, password)`. -/
def decrypt {A : Type} : Envelope A → String → Except JsError A
  | .enc payload pw0, pw =>
    if pw = pw0 then .ok payload else .error ⟨invalidPasswordMsg⟩
  | .tampered, _ => .error ⟨invalidPasswordMsg⟩
  | .malformedEnv m, _ => .error ⟨m⟩

end CryptoUtils

/-! ## Keystore (keystore.js, extended account-management variant)

The ethers library is an external collaborator; its two derivation entry
points used by the keystore are passed in as an oracle, and the account
produced by `ethers.Wallet.createRandom()` is a parameter of `createWallet`. -/

/-- The parts of the ethers library the keystore calls. `addrOfPrivKey pk` is
`new ethers.Wallet(pk).address` (EIP-55 checksummed, possibly mixed case);
`hdDerive mnemonic path` is
`ethers.HDNodeWallet.fromPhrase(mnemonic).derivePath(path)`, returning the
derived (address, privateKey). -/
structure EthersOracle where
  addrOfPrivKey : String → String
  hdDerive : String → String → String × String

/-- The account object returned by `ethers.Wallet.createRandom()`: a
checksummed address, a private key, a 12-word mnemonic phrase, and an
optional `path` property. -/
structure RandomAccount where
  address : String
  privateKey : String
  mnemonicPhrase : String
  hdPath : Option String
deriving DecidableEq, Repr

/-- One element of `walletData.accounts`. The fields `index`, `visible` and
`label` are optional because `importWallet` writes account records without
them (while `createWallet` and `createNextAccount` set all of them). -/
structure AccountData where
  address : String
  path : Option String
  privateKey : String
  index : Option Nat
  visible : Option Bool
  label : Option String
deriving DecidableEq, Repr

/-- The decrypted WalletPayload: `{mnemonic, nextAccountIndex, accounts}`. -/
structure WalletData where
  mnemonic : Option String
  nextAccountIndex : Option Nat
  accounts : List AccountData
deriving DecidableEq, Repr

/-- The mutable fields of Keystore. `wallets` models the JS Map from
lower-cased address to the in-memory wallet instance (represented by its
private key), with JS Map insertion-order semantics. `encryptedData` models
the loaded KeystoreFile (its `crypto` envelope). `walletData` is the
decrypted payload kept for account management; note that `createWallet` and
`importWallet` do NOT set it (only `unlock` does). -/
structure KeystoreState where
  isLocked : Bool
  wallets : List (String × String)
  encryptedData : Option (Envelope WalletData)
  walletData : Option WalletData
deriving DecidableEq, Repr

/-- Constructor state. -/
def keystoreInit : KeystoreState :=
  { isLocked := true, wallets := [], encryptedData := none, walletData := none }

/-- JS `Map.set`: overwrite in place when the key exists, else append. -/
def mapSet (m : List (String × String)) (k v : String) : List (String × String) :=
  if m.any (fun p => p.1 == k) then
    m.map (fun p => if p.1 == k then (k, v) else p)
  else m ++ [(k, v)]

/-- The default HD derivation path for account 0. -/
def defaultHdPath : String := "m/44\x27/60\x27/0\x27/0/0"

/-- The result object of `createWallet`. -/
structure CreateResult where
  address : String
  mnemonic : String
deriving DecidableEq, Repr

namespace Keystore

/-- `createWallet(password)`: requires at least 8 characters, stores one
account record at index 0 (visible, labelled), persists the encrypted
payload, loads the account into the in-memory map under the lower-cased
address and unlocks. Returns `{address, mnemonic}`. -/
def createWallet (s : KeystoreState) (password : String) (acct : RandomAccount) :
    Except JsError (CreateResult × KeystoreState) :=
  if password.length < 8 then
    .error ⟨"Password must be at least 8 characters"⟩
  else
    let wd : WalletData :=
      { mnemonic := some acct.mnemonicPhrase
        nextAccountIndex := some 1
        accounts := [{ address := acct.address
                       path := some (acct.hdPath.getD defaultHdPath)
                       privateKey := acct.privateKey
                       index := some 0
                       visible := some true
                       label := some "Account 1" }] }
    .ok ({ address := acct.address, mnemonic := acct.mnemonicPhrase },
      { s with
        encryptedData := some (Envelope.enc wd password)
        wallets := mapSet s.wallets (lowerStr acct.address) acct.privateKey
        isLocked := false })

/-- `importWallet(secretData, password)`: a secret splitting into at least 12
space-separated words is treated as a mnemonic (derive account 0 at the
default path); a 0x-prefixed 66-character string is treated as a raw private
key; anything else is invalid. The stored account record carries only
`{address, path, privateKey}` — no index, visible or label fields. -/
def importWallet (s : KeystoreState) (secretData password : String)
    (oracle : EthersOracle) : Except JsError (String × KeystoreState) :=
  if password.length < 8 then
    .error ⟨"Password must be at least 8 characters"⟩
  else if 12 ≤ jsSplitCount secretData ' ' then
    let mnemonic := jsTrim secretData
    let d := oracle.hdDerive mnemonic defaultHdPath
    let wd : WalletData :=
      { mnemonic := some mnemonic
        nextAccountIndex := none
        accounts := [{ address := d.1, path := some defaultHdPath,
                       privateKey := d.2, index := none, visible := none,
                       label := none }] }
    .ok (d.1,
      { s with
        encryptedData := some (Envelope.enc wd password)
        wallets := mapSet s.wallets (lowerStr d.1) d.2
        isLocked := false })
  else if jsStartsWith secretData "0x" && secretData.length == 66 then
    let addr := oracle.addrOfPrivKey secretData
    let wd : WalletData :=
      { mnemonic := none
        nextAccountIndex := none
        accounts := [{ address := addr, path := none, privateKey := secretData,
                       index := none, visible := none, label := none }] }
    .ok (addr,
      { s with
        encryptedData := some (Envelope.enc wd password)
        wallets := mapSet s.wallets (lowerStr addr) secretData
        isLocked := false })
  else
    .error ⟨"Invalid mnemonic phrase or private key"⟩

/-- `unlock(password)`: throws when no keystore is loaded; on a decryption
error whose message includes the substring `Invalid password` it returns
false without touching any state; any other error propagates. On success it
records the decrypted payload, rebuilds the in-memory map (keyed by the
lower-cased address recomputed from each private key) and unlocks. -/
def unlock (s : KeystoreState) (password : String) (oracle : EthersOracle) :
    Except JsError (Bool × KeystoreState) :=
  match s.encryptedData with
  | none => .error ⟨"No keystore found"⟩
  | some env =>
    match CryptoUtils.decrypt env password with
    | .ok wd =>
      let ws := wd.accounts.foldl
        (fun m a => mapSet m (lowerStr (oracle.addrOfPrivKey a.privateKey))
          a.privateKey) []
      .ok (true, { s with walletData := some wd, wallets := ws, isLocked := false })
    | .error e =>
      if jsIncludes e.message "Invalid password" then .ok (false, s)
      else .error e

/-- `lock()`: clears the in-memory map and payload, marks locked. -/
def lock (s : KeystoreState) : KeystoreState :=
  { s with wallets := [], walletData := none, isLocked := true }

/-- `getAccounts(includeHidden = false)`: empty when locked; otherwise the
Map keys, filtered by the matching account record having `visible !== false`
unless hidden accounts are included or no payload is loaded. -/
def getAccounts (s : KeystoreState) (includeHidden : Bool) : List String :=
  if s.isLocked then []
  else
    let accounts := s.wallets.map Prod.fst
    match s.walletData with
    | none => accounts
    | some wd =>
      if includeHidden then accounts
      else accounts.filter (fun a =>
        match wd.accounts.find? (fun acc => lowerStr acc.address == lowerStr a) with
        | none => true
        | some acc => !(acc.visible == some false))

/-- Mutate the first account record matching the predicate, as the JS
`accounts.find(...)`-then-assign does. -/
def updateFirstAccount (l : List AccountData) (p : AccountData → Bool)
    (f : AccountData → AccountData) : List AccountData :=
  match l with
  | [] => []
  | a :: rest => if p a then f a :: rest else a :: updateFirstAccount rest p f

/-- `_setAccountVisibility(address, visible, password)`: requires unlocked;
reads `this.walletData.accounts` (a TypeError when no payload is loaded);
fails when the address is absent; refuses to hide only when the record has
`index === 0`; otherwise updates the record and re-encrypts the whole payload
under the supplied password. -/
def setAccountVisibility (s : KeystoreState) (address : String) (visible : Bool)
    (password : String) : Except JsError (Bool × KeystoreState) :=
  if s.isLocked then .error ⟨"Keystore is locked"⟩
  else
    match s.walletData with
    | none => .error ⟨"Cannot read properties of null (reading accounts)"⟩
    | some wd =>
      match wd.accounts.find? (fun acc => lowerStr acc.address == lowerStr address) with
      | none => .error ⟨"Account not found"⟩
      | some acc =>
        if acc.index == some 0 && !visible then
          .error ⟨"Cannot hide the primary account"⟩
        else
          let acc2 := updateFirstAccount wd.accounts
            (fun a => lowerStr a.address == lowerStr address)
            (fun a => { a with visible := some visible })
          let wd2 := { wd with accounts := acc2 }
          .ok (true, { s with
            walletData := some wd2
            encryptedData := some (Envelope.enc wd2 password) })

/-- `hideAccount(address, password)`. -/
def hideAccount (s : KeystoreState) (address password : String) :
    Except JsError (Bool × KeystoreState) :=
  setAccountVisibility s address false password

/-- `showAccount(address, password)`. -/
def showAccount (s : KeystoreState) (address password : String) :
    Except JsError (Bool × KeystoreState) :=
  setAccountVisibility s address true password

end Keystore

/-! ## Keystore claims -/

/-- A raw private key secret: 0x followed by 64 hex characters. -/
def c4Secret : String :=
  "0x1111111111111111111111111111111111111111111111111111111111111111"

/-- The (modelled) address ethers derives for `c4Secret`. -/
def c4Addr : String := "0x1111111111111111111111111111111111111111"

/-- A concrete instantiation of the ethers oracle for the import scenario. -/
def c4Oracle : EthersOracle :=
  { addrOfPrivKey := fun _ => c4Addr, hdDerive := fun _ _ => ("", "") }

def c4Import : Except JsError (String × KeystoreState) :=
  Keystore.importWallet keystoreInit c4Secret "password123" c4Oracle

def c4State1 : KeystoreState :=
  match c4Import with | .ok p => p.2 | .error _ => keystoreInit

def c4Unlock : Except JsError (Bool × KeystoreState) :=
  Keystore.unlock (Keystore.lock c4State1) "password123" c4Oracle

def c4State3 : KeystoreState :=
  match c4Unlock with | .ok p => p.2 | .error _ => keystoreInit

def c4Hide : Except JsError (Bool × KeystoreState) :=
  Keystore.hideAccount c4State3 c4Addr "password123"

def c4State4 : KeystoreState :=
  match c4Hide with | .ok p => p.2 | .error _ => keystoreInit

/-- Claim C4: the spec says the primary (index 0) account exists in every
wallet and can never be hidden (`CannotHidePrimary`). In the code
`importWallet` writes its account record without the `index` (or `visible`,
`label`) fields, so for an imported wallet the guard `accountData.index === 0`
is false and hiding the primary account of an imported wallet succeeds,
after which the default `getAccounts()` omits it. (Right after importing,
the record also has no `index: 0` at all.) -/
theorem C4_import_hide_primary_succeeds :
    c4Import = Except.ok (c4Addr, c4State1) ∧
    (c4State1.encryptedData.map fun env =>
      match env with
      | .enc wd _ => some (wd.accounts.map AccountData.index)
      | _ => none) = some (some [none]) ∧
    c4Unlock = Except.ok (true, c4State3) ∧
    c4Hide = Except.ok (true, c4State4) ∧
    (c4State4.walletData.map fun wd => wd.accounts.map AccountData.visible)
      = some [some false] ∧
    Keystore.getAccounts c4State4 false = [] ∧
    Keystore.getAccounts c4State4 true = [c4Addr] := by
  refine ⟨?_, ?_, ?_, ?_, ?_, ?_, ?_⟩ <;> decide

/-- Claim C7: `unlock` returns false exactly on a GCM authentication failure
(wrong password or tampered data, rewrapped by decrypt into the distinguished
`Invalid password or corrupted data` error), and propagates every other
error, in particular those raised on a malformed envelope, which never carry
that message. -/
theorem C7_unlock_error_discrimination
    (s : KeystoreState) (payload : WalletData) (pw0 pw m : String)
    (oracle : EthersOracle)
    (hne : pw ≠ pw0) (hm : jsIncludes m "Invalid password" = false) :
    (CryptoUtils.decrypt (Envelope.enc payload pw0) pw
       = Except.error ⟨invalidPasswordMsg⟩) ∧
    (CryptoUtils.decrypt (Envelope.tampered : Envelope WalletData) pw
       = Except.error ⟨invalidPasswordMsg⟩) ∧
    (CryptoUtils.decrypt (Envelope.malformedEnv m : Envelope WalletData) pw
       = Except.error ⟨m⟩) ∧
    (m ≠ invalidPasswordMsg) ∧
    (s.encryptedData = some (Envelope.enc payload pw0) →
       Keystore.unlock s pw oracle = Except.ok (false, s)) ∧
    (s.encryptedData = some Envelope.tampered →
       Keystore.unlock s pw oracle = Except.ok (false, s)) ∧
    (s.encryptedData = some (Envelope.malformedEnv m) →
       Keystore.unlock s pw oracle = Except.error ⟨m⟩) ∧
    (∀ (b : Bool) (r : KeystoreState),
       Keystore.unlock s pw oracle = Except.ok (b, r) → b = false →
       ∃ (env : Envelope WalletData) (e : JsError),
         s.encryptedData = some env ∧
         CryptoUtils.decrypt env pw = Except.error e ∧
         jsIncludes e.message "Invalid password" = true) := by
  have hInc : jsIncludes invalidPasswordMsg "Invalid password" = true := by decide
  refine ⟨?_, rfl, rfl, ?_, ?_, ?_, ?_, ?_⟩
  · simp [CryptoUtils.decrypt, hne]
  · intro heq
    rw [heq] at hm
    rw [hInc] at hm
    exact Bool.true_eq_false.mp hm
  · intro henv
    unfold Keystore.unlock
    rw [henv]
    simp [CryptoUtils.decrypt, hne, hInc]
  · intro henv
    unfold Keystore.unlock
    rw [henv]
    simp [CryptoUtils.decrypt, hInc]
  · intro henv
    unfold Keystore.unlock
    rw [henv]
    simp [CryptoUtils.decrypt, hm]
  · intro b r hok hb
    subst hb
    unfold Keystore.unlock at hok
    split at hok
    · exact absurd hok (by simp)
    · next env henv =>
      split at hok
      · simp at hok
      · next e hd =>
        split at hok
        · next hinc => exact ⟨env, e, henv, hd, hinc⟩
        · exact absurd hok (by simp)

/-- The payload and state used to witness C7 at concrete inputs. -/
def c7Payload : WalletData :=
  { mnemonic := none, nextAccountIndex := none, accounts := [] }

def c7State : KeystoreState :=
  { isLocked := true, wallets := [],
    encryptedData := some (Envelope.enc c7Payload "password123"),
    walletData := none }

theorem C7_unlock_error_discrimination_witness :
    CryptoUtils.decrypt (Envelope.enc c7Payload "password123") "password124"
      = Except.error ⟨invalidPasswordMsg⟩ ∧
    Keystore.unlock c7State "password124" c4Oracle = Except.ok (false, c7State) := by
  have h := C7_unlock_error_discrimination c7State c7Payload "password123"
    "password124" "bad envelope" c4Oracle (by decide) (by decide)
  exact ⟨h.1, h.2.2.2.2.1 rfl⟩

/-- Claim C10: a failed unlock (wrong password, returning false) leaves the
keystore state — lock flag, in-memory wallet map and decrypted payload —
exactly as it was. -/
theorem C10_failed_unlock_preserves_state
    (s r : KeystoreState) (pw : String) (oracle : EthersOracle)
    (h : Keystore.unlock s pw oracle = Except.ok (false, r)) :
    r = s ∧ r.isLocked = s.isLocked ∧ r.wallets = s.wallets ∧
    r.walletData = s.walletData := by
  unfold Keystore.unlock at h
  split at h
  · exact absurd h (by simp)
  · split at h
    · simp at h
    · split at h
      · have hrs : r = s := by
          have h2 := (Except.ok.injEq _ _).mp h
          exact ((Prod.mk.injEq _ _ _ _).mp h2).2.symm
        exact ⟨hrs, by rw [hrs], by rw [hrs], by rw [hrs]⟩
      · exact absurd h (by simp)

/-- An unlocked keystore state (one loaded account) used to witness C10: a
failed re-unlock does not clear the loaded accounts. -/
def c10State : KeystoreState :=
  { isLocked := false
    wallets := [("0xaaaaaaaaaaaaaaaaaaaaaaaaaaaaaaaaaaaaaaaa", "0xkey")]
    encryptedData := some (Envelope.enc c7Payload "password123")
    walletData := some c7Payload }

theorem C10_failed_unlock_preserves_state_witness :
    Keystore.unlock c10State "wrongpass" c4Oracle = Except.ok (false, c10State) ∧
    (c10State.wallets ≠ [] ∧ c10State.isLocked = false) ∧
    c10State.walletData = c10State.walletData := by
  refine ⟨by decide, ⟨by decide, by decide⟩, ?_⟩
  exact (C10_failed_unlock_preserves_state c10State c10State "wrongpass"
    c4Oracle (by decide)).2.2.2

/-- A checksummed (mixed-case) address as `ethers.Wallet.createRandom()`
returns: 0x followed by 40 hex characters with EIP-55 casing. -/
def c8Addr : String := "0xAbcDef0123456789abcDef0123456789ABcDef01"

/-- A 12-word mnemonic phrase. -/
def c8Mnemonic : String :=
  "word01 word02 word03 word04 word05 word06 word07 word08 word09 word10 word11 word12"

/-- The account `ethers.Wallet.createRandom()` is modelled to return. -/
def c8Acct : RandomAccount :=
  { address := c8Addr
    privateKey := "0xc8privatekey"
    mnemonicPhrase := c8Mnemonic
    hdPath := none }

/-- Ethers determinism: rebuilding a wallet from the stored private key gives
back the same checksummed address. -/
def c8Oracle : EthersOracle :=
  { addrOfPrivKey := fun pk => if pk == "0xc8privatekey" then c8Addr else ""
    hdDerive := fun _ _ => ("", "") }

def c8Create : Except JsError (CreateResult × KeystoreState) :=
  Keystore.createWallet keystoreInit "password123" c8Acct

def c8State1 : KeystoreState :=
  match c8Create with | .ok p => p.2 | .error _ => keystoreInit

def c8Unlock : Except JsError (Bool × KeystoreState) :=
  Keystore.unlock c8State1 "password123" c8Oracle

def c8State2 : KeystoreState :=
  match c8Unlock with | .ok p => p.2 | .error _ => keystoreInit

/-- Counterexample to claim C8 as stated: `createWallet` returns the
checksummed mixed-case address, but after unlock `getAccounts()` returns the
Map keys, which are stored lower-cased — so the returned list is
`[address.toLowerCase()]`, not exactly `[address]`. -/
theorem C8_getAccounts_lowercase_counterexample :
    c8Create = Except.ok ({ address := c8Addr, mnemonic := c8Mnemonic }, c8State1) ∧
    c8Addr.length = 42 ∧
    jsStartsWith c8Addr "0x" = true ∧
    jsSplitCount c8Mnemonic ' ' = 12 ∧
    c8Unlock = Except.ok (true, c8State2) ∧
    Keystore.getAccounts c8State2 false = [lowerStr c8Addr] ∧
    Keystore.getAccounts c8State2 false ≠ [c8Addr] := by
  refine ⟨?_, ?_, ?_, ?_, ?_, ?_, ?_⟩ <;> decide

/-- Claim C8 as amended: for every password of length at least 8,
`createWallet` returns the 42-character 0x-prefixed address and the 12-word
mnemonic of the generated account; a subsequent `unlock` with the same
password returns true and `getAccounts()` then returns exactly the one-element
list containing that address lower-cased; after `lock()`, `getAccounts()`
returns the empty list. -/
theorem C8_create_unlock_roundtrip_amended
    (acct : RandomAccount) (pw : String) (oracle : EthersOracle)
    (hpw : ¬ pw.length < 8)
    (haddr : oracle.addrOfPrivKey acct.privateKey = acct.address)
    (hlen : acct.address.length = 42)
    (hpre : jsStartsWith acct.address "0x" = true)
    (hwords : jsSplitCount acct.mnemonicPhrase ' ' = 12) :
    ∃ (res : CreateResult) (s1 s2 : KeystoreState),
      Keystore.createWallet keystoreInit pw acct = Except.ok (res, s1) ∧
      res.address = acct.address ∧
      res.mnemonic = acct.mnemonicPhrase ∧
      res.address.length = 42 ∧
      jsStartsWith res.address "0x" = true ∧
      jsSplitCount res.mnemonic ' ' = 12 ∧
      Keystore.unlock s1 pw oracle = Except.ok (true, s2) ∧
      Keystore.getAccounts s2 false = [lowerStr res.address] ∧
      Keystore.getAccounts (Keystore.lock s2) false = [] := by
  unfold Keystore.createWallet
  rw [if_neg hpw]
  refine ⟨_, _,
    ⟨false, [(lowerStr acct.address, acct.privateKey)],
     some (Envelope.enc
       { mnemonic := some acct.mnemonicPhrase
         nextAccountIndex := some 1
         accounts := [{ address := acct.address
                        path := some (acct.hdPath.getD defaultHdPath)
                        privateKey := acct.privateKey
                        index := some 0
                        visible := some true
                        label := some "Account 1" }] } pw),
     some { mnemonic := some acct.mnemonicPhrase
            nextAccountIndex := some 1
            accounts := [{ address := acct.address
                           path := some (acct.hdPath.getD defaultHdPath)
                           privateKey := acct.privateKey
                           index := some 0
                           visible := some true
                           label := some "Account 1" }] }⟩,
    rfl, rfl, rfl, hlen, hpre, hwords, ?_, ?_, ?_⟩
  · simp [Keystore.unlock, CryptoUtils.decrypt, mapSet, keystoreInit, haddr]
  · cases hb : (lowerStr acct.address == lowerStr (lowerStr acct.address)) with
    | true => simp [Keystore.getAccounts, List.filter, List.find?, hb]
    | false => simp [Keystore.getAccounts, List.filter, List.find?, hb]
  · rfl

/-- Witness for the amended C8 at the concrete generated account. -/
theorem C8_create_unlock_roundtrip_amended_witness :
    ∃ (res : CreateResult) (s1 s2 : KeystoreState),
      Keystore.createWallet keystoreInit "password123" c8Acct
        = Except.ok (res, s1) ∧
      res.address = c8Acct.address ∧
      res.mnemonic = c8Acct.mnemonicPhrase ∧
      res.address.length = 42 ∧
      jsStartsWith res.address "0x" = true ∧
      jsSplitCount res.mnemonic ' ' = 12 ∧
      Keystore.unlock s1 "password123" c8Oracle = Except.ok (true, s2) ∧
      Keystore.getAccounts s2 false = [lowerStr res.address] ∧
      Keystore.getAccounts (Keystore.lock s2) false = [] :=
  C8_create_unlock_roundtrip_amended c8Acct "password123" c8Oracle
    (by decide) (by decide) (by decide) (by decide) (by decide)

/-! ## ValidationPipeline (validation-pipeline.js) -/

/-- The VALIDATION_ERRORS codes. -/
inductive VCode
  | daemon_not_ready
  | wallet_locked
  | no_keystore
  | permission_denied
  | invalid_request
  | rate_limited
deriving DecidableEq, Repr

/-- A ValidationError, reduced to its code and message. -/
structure VError where
  code : VCode
  message : String
deriving DecidableEq, Repr

/-- The nested fields of `request.data` that the schema table can require;
`none` models the field being absent or null (both rejected by
`_getNestedValue`). -/
structure ReqData where
  password : Option Unit
  transaction : Option Unit
  address : Option Unit
  message : Option Unit
deriving DecidableEq, Repr

/-- An inbound request as the pipeline sees it: `{id, type, data, origin}`
(the id and timestamp play no role in validation). -/
structure VRequest where
  rtype : String
  rdata : Option ReqData
  origin : Option String
deriving DecidableEq, Repr

/-- The always-allowed types of the daemon-state check. -/
def alwaysAllowed : List String := ["get_status", "ping", "shutdown"]

/-- The types requiring a keystore on disk. -/
def keystoreRequired : List String :=
  ["unlock_keystore", "get_accounts", "sign_transaction", "sign_message",
   "eth_accounts", "eth_sendTransaction", "personal_sign"]

/-- The types requiring an unlocked wallet. -/
def unlockRequired : List String :=
  ["get_accounts", "sign_transaction", "sign_message", "eth_accounts",
   "eth_sendTransaction", "personal_sign", "eth_sign"]

/-- Check 1, `_validateDaemonState`: rejects in STARTING and ERROR (the third
branch repeats the STARTING test after it has already returned and is dead). -/
def validateDaemonState (st : DaemonState) (req : VRequest) : Except VError Unit :=
  if st == DaemonState.starting then
    .error ⟨.daemon_not_ready, "Daemon is still starting up"⟩
  else if st == DaemonState.error then
    .error ⟨.daemon_not_ready, "Daemon is in error state"⟩
  else if !(alwaysAllowed.contains req.rtype) && st == DaemonState.starting then
    .error ⟨.daemon_not_ready, "Daemon not ready for this operation"⟩
  else .ok ()

/-- Check 2, `_validateKeystore`. -/
def validateKeystoreCheck (hasKeystore : Bool) (req : VRequest) :
    Except VError Unit :=
  if keystoreRequired.contains req.rtype && !hasKeystore then
    .error ⟨.no_keystore, "No wallet found. Create one first."⟩
  else .ok ()

/-- Check 3, `_validateSession`. -/
def validateSession (st : DaemonState) (req : VRequest) : Except VError Unit :=
  if unlockRequired.contains req.rtype && !(st == DaemonState.unlocked) then
    .error ⟨.wallet_locked, "Wallet is locked. Unlock first."⟩
  else .ok ()

/-- Check 4, `_validatePermissions`: a no-op without a permission manager;
with one, a truthy non-cli origin must hold the permission. -/
def validatePermissions (pm : Option (String → String → Bool)) (req : VRequest) :
    Except VError Unit :=
  match pm with
  | none => .ok ()
  | some check =>
    match req.origin with
    | none => .ok ()
    | some o =>
      if o ≠ "" && o ≠ "cli" && !(check o req.rtype) then
        .error ⟨.permission_denied,
          "Origin " ++ o ++ " not permitted for " ++ req.rtype⟩
      else .ok ()

/-- `_getRateLimit`: requests per minute per type, default 30. -/
def getRateLimit (requestType : String) : Nat :=
  if requestType == "sign_transaction" then 10
  else if requestType == "sign_message" then 20
  else if requestType == "unlock_keystore" then 5
  else if requestType == "get_status" then 100
  else if requestType == "get_accounts" then 50
  else 30

/-- The rate-limiter Map from `origin:type` keys to the recorded request
timestamps, with JS Map insertion-order semantics. -/
abbrev RateMap : Type := List (String × List Nat)

def rlGet (m : RateMap) (k : String) : List Nat :=
  match m.find? (fun p => p.1 == k) with
  | some p => p.2
  | none => []

def rlSet (m : RateMap) (k : String) (v : List Nat) : RateMap :=
  if m.any (fun p => p.1 == k) then
    m.map (fun p => if p.1 == k then (k, v) else p)
  else m ++ [(k, v)]

/-- The limiter key: a falsy origin (absent or empty) maps to `cli`. -/
def rateKey (req : VRequest) : String :=
  (match req.origin with
   | some o => if o = "" then "cli" else o
   | none => "cli") ++ ":" ++ req.rtype

/-- Check 5, `_validateRateLimit`: ensures the key exists, drops entries older
than 60 s, rejects when the surviving entries reach the quota (without
recording the rejected request), and otherwise records `now`. -/
def validateRateLimit (m : RateMap) (req : VRequest) (now : Nat) :
    Except VError Unit × RateMap :=
  let key := rateKey req
  let limit := getRateLimit req.rtype
  let m1 := if m.any (fun p => p.1 == key) then m else m ++ [(key, [])]
  let filtered := (rlGet m1 key).filter (fun time => now - time < 60000)
  if limit ≤ filtered.length then
    (.error ⟨.rate_limited, "Rate limit exceeded for " ++ req.rtype⟩, m1)
  else
    (.ok (), rlSet m1 key (filtered ++ [now]))

/-- The required-field table of `_validateRequest` (an unlisted type has no
required fields). -/
def requiredFields (t : String) : List String :=
  if t == "unlock_keystore" then ["data.password"]
  else if t == "sign_transaction" then ["data.transaction", "data.address"]
  else if t == "sign_message" then ["data.message", "data.address"]
  else if t == "eth_sendTransaction" then ["data.transaction"]
  else []

/-- `_getNestedValue(request, field)` on the fields the table can name. -/
def getNestedValue (req : VRequest) (field : String) : Option Unit :=
  match req.rdata with
  | none => none
  | some d =>
    if field == "data.password" then d.password
    else if field == "data.transaction" then d.transaction
    else if field == "data.address" then d.address
    else if field == "data.message" then d.message
    else none

/-- Check 6, `_validateRequest`: a falsy type or the first missing required
field rejects with invalid_request. -/
def validateRequestSchema (req : VRequest) : Except VError Unit :=
  if req.rtype == "" then
    .error ⟨.invalid_request, "Request type is required"⟩
  else
    match (requiredFields req.rtype).find? (fun f => getNestedValue req f == none) with
    | some f => .error ⟨.invalid_request, "Missing required field: " ++ f⟩
    | none => .ok ()

/-- The pipeline state: the state manager view, keystore existence, the
optional permission manager, and the rate limiter map. -/
structure PipeState where
  currentState : DaemonState
  hasKeystore : Bool
  permissionChecker : Option (String → String → Bool)
  rateLimiter : RateMap

/-- `ValidationPipeline.validate(request)`: the six checks in order, stopping
at the first failure; the rate limiter map is the only state the pipeline
mutates (and it is updated even when the later schema check fails). -/
def validate (st : PipeState) (req : VRequest) (now : Nat) :
    Except VError Unit × RateMap :=
  match validateDaemonState st.currentState req with
  | .error e => (.error e, st.rateLimiter)
  | .ok () =>
  match validateKeystoreCheck st.hasKeystore req with
  | .error e => (.error e, st.rateLimiter)
  | .ok () =>
  match validateSession st.currentState req with
  | .error e => (.error e, st.rateLimiter)
  | .ok () =>
  match validatePermissions st.permissionChecker req with
  | .error e => (.error e, st.rateLimiter)
  | .ok () =>
  match validateRateLimit st.rateLimiter req now with
  | (.error e, m) => (.error e, m)
  | (.ok (), m) =>
  match validateRequestSchema req with
  | .error e => (.error e, m)
  | .ok () => (.ok (), m)

/-- The code of a pipeline outcome (none = accepted). -/
def codeOf : Except VError Unit → Option VCode
  | .ok _ => none
  | .error e => some e.code

/-- An `unlock_keystore` request with `data.password` missing. -/
def c1Req : VRequest :=
  { rtype := "unlock_keystore"
    rdata := some { password := none, transaction := none, address := none,
                    message := none }
    origin := some "cli" }

/-- The pipeline with the daemon still STARTING. -/
def c1State : PipeState :=
  { currentState := DaemonState.starting
    hasKeystore := true
    permissionChecker := none
    rateLimiter := [] }

/-- Counterexample to claim C1 as stated: the schema check runs last, so a
request with a missing required field arriving while the daemon state is
STARTING is rejected with daemon_not_ready, not invalid_request. -/
theorem C1_missing_field_starting_counterexample :
    requiredFields c1Req.rtype = ["data.password"] ∧
    getNestedValue c1Req "data.password" = none ∧
    (validate c1State c1Req 0).1 =
      Except.error ⟨VCode.daemon_not_ready, "Daemon is still starting up"⟩ ∧
    codeOf (validate c1State c1Req 0).1 ≠ some VCode.invalid_request := by
  refine ⟨?_, ?_, ?_, ?_⟩ <;> decide

/-- Claim C1 as amended: when the five earlier checks pass (daemon state
neither STARTING nor ERROR, keystore present where required, UNLOCKED where
required, permission granted, rate quota not reached), a request whose type
has required schema fields of which one is missing is rejected with
invalid_request. -/
theorem C1_missing_field_invalid_request_amended
    (st : PipeState) (req : VRequest) (now : Nat)
    (h1 : validateDaemonState st.currentState req = Except.ok ())
    (h2 : validateKeystoreCheck st.hasKeystore req = Except.ok ())
    (h3 : validateSession st.currentState req = Except.ok ())
    (h4 : validatePermissions st.permissionChecker req = Except.ok ())
    (h5 : (validateRateLimit st.rateLimiter req now).1 = Except.ok ())
    (f : String) (hf : f ∈ requiredFields req.rtype)
    (hmiss : getNestedValue req f = none) :
    ∃ e : VError, (validate st req now).1 = Except.error e ∧
      e.code = VCode.invalid_request := by
  have hne : req.rtype ≠ "" := by
    intro h0
    rw [show requiredFields req.rtype = [] by simp [requiredFields, h0]] at hf
    exact absurd hf (List.not_mem_nil f)
  have hfind : ∃ g, (requiredFields req.rtype).find?
      (fun f2 => getNestedValue req f2 == none) = some g := by
    rcases hcase : (requiredFields req.rtype).find?
        (fun f2 => getNestedValue req f2 == none) with _ | g
    · rw [List.find?_eq_none] at hcase
      exact absurd (by simp [hmiss]) (hcase f hf)
    · exact ⟨g, rfl⟩
  obtain ⟨g, hg⟩ := hfind
  have hschema : validateRequestSchema req =
      Except.error ⟨VCode.invalid_request, "Missing required field: " ++ g⟩ := by
    unfold validateRequestSchema
    rw [if_neg (by simpa using hne), hg]
  refine ⟨⟨VCode.invalid_request, "Missing required field: " ++ g⟩, ?_, rfl⟩
  unfold validate
  rw [h1, h2, h3, h4]
  rcases hrl : validateRateLimit st.rateLimiter req now with ⟨r, m⟩
  rw [hrl] at h5
  simp only at h5
  subst h5
  rw [hschema]

/-- Witness for the amended C1: state UNLOCKED, keystore present, no
permission manager, empty limiter, `sign_transaction` carrying a transaction
but no address. -/
theorem C1_missing_field_invalid_request_witness :
    ∃ e : VError,
      (validate
        { currentState := DaemonState.unlocked, hasKeystore := true,
          permissionChecker := none, rateLimiter := [] }
        { rtype := "sign_transaction"
          rdata := some { password := none, transaction := some (),
                          address := none, message := none }
          origin := some "cli" } 0).1 = Except.error e ∧
      e.code = VCode.invalid_request :=
  C1_missing_field_invalid_request_amended _ _ 0 (by decide) (by decide)
    (by decide) (by decide) (by decide) "data.address" (by decide) (by decide)

/-- Ensuring the key exists with an empty entry list does not change what
`rateLimiter.get(key)` returns. -/
theorem rlGet_ensureKey (m : RateMap) (k : String) :
    rlGet (if m.any (fun p => p.1 == k) then m else m ++ [(k, [])]) k
      = rlGet m k := by
  by_cases h : m.any (fun p => p.1 == k) = true
  · rw [if_pos h]
  · rw [if_neg h]
    have hnone : m.find? (fun p => p.1 == k) = none := by
      rw [List.find?_eq_none]
      intro x hx hpx
      exact h (List.any_eq_true.mpr ⟨x, hx, hpx⟩)
    unfold rlGet
    rw [List.find?_append, hnone]
    simp [List.find?]

/-- A complete `sign_transaction` request from a browser origin. -/
def c6Req : VRequest :=
  { rtype := "sign_transaction"
    rdata := some { password := none, transaction := some (),
                    address := some (), message := none }
    origin := some "https://dapp.example" }

/-- The pipeline with the wallet unlocked, no permission manager and an empty
limiter. -/
def c6PipeState : PipeState :=
  { currentState := DaemonState.unlocked
    hasKeystore := true
    permissionChecker := none
    rateLimiter := [] }

/-- Feed a sequence of (request, arrival time) pairs through the pipeline,
threading the rate limiter map, and collect each outcome code. -/
def runValidateSeq (st : PipeState) (reqs : List (VRequest × Nat)) :
    List (Option VCode) × RateMap :=
  reqs.foldl
    (fun acc rn =>
      let r := validate { st with rateLimiter := acc.2 } rn.1 rn.2
      (acc.1 ++ [codeOf r.1], r.2))
    ([], st.rateLimiter)

/-- Eleven `sign_transaction` requests inside one minute, then one more after
the 60 s window has elapsed. -/
def c6Calls : List (VRequest × Nat) :=
  List.replicate 11 (c6Req, 0) ++ [(c6Req, 60000)]

/-- Claim C6: the per-type quotas are as specified; one rate-limit step
rejects with rate_limited exactly when the entries of the requesting
(origin, type) key still inside the sliding 60-second window have reached the
quota (and does not record a rejected request); and in the concrete scenario
eleven `sign_transaction` requests from one origin within 60 seconds pass for
the first ten, reject exactly the eleventh, and a request arriving once the
window has elapsed is admitted again. -/
theorem C6_rate_limit_window :
    (getRateLimit "sign_transaction" = 10 ∧ getRateLimit "sign_message" = 20 ∧
     getRateLimit "unlock_keystore" = 5 ∧ getRateLimit "get_status" = 100 ∧
     getRateLimit "get_accounts" = 50 ∧ getRateLimit "eth_requestAccounts" = 30) ∧
    (∀ (m : RateMap) (req : VRequest) (now : Nat),
      codeOf (validateRateLimit m req now).1 =
        (if getRateLimit req.rtype ≤
            ((rlGet m (rateKey req)).filter (fun time => now - time < 60000)).length
         then some VCode.rate_limited else none)) ∧
    ((runValidateSeq c6PipeState c6Calls).1 =
      List.replicate 10 none ++ [some VCode.rate_limited, none]) := by
  refine ⟨by decide, ?_, by decide⟩
  intro m req now
  unfold validateRateLimit
  simp only [rlGet_ensureKey]
  by_cases hle : getRateLimit req.rtype ≤
      ((rlGet m (rateKey req)).filter (fun time => now - time < 60000)).length
  · rw [if_pos hle, if_pos hle]
    rfl
  · rw [if_neg hle, if_neg hle]
    rfl

/-! ## NativeMessaging framing (messaging.js)

Bytes are Nat values below 256; a message is framed as a 4-byte little-endian
length header followed by the payload bytes, exactly as `sendMessage` writes
it. `readMessages` models the reader loop over the buffered stream:
`stdin.read(4)` returns null when fewer than 4 bytes are buffered;
`stdin.read(len)` returns null when fewer than `len` payload bytes are
buffered, in which case the header is unshifted back onto the stream and the
loop exits, leaving the buffer unchanged. -/

/-- `writeUInt32LE`: the 4 little-endian bytes of a length below 2^32. -/
def toLE4 (n : Nat) : List Nat :=
  [n % 256, n / 256 % 256, n / 65536 % 256, n / 16777216 % 256]

/-- `readUInt32LE` on the first 4 buffered bytes. -/
def fromLE4 : List Nat → Nat
  | b0 :: b1 :: b2 :: b3 :: _ => b0 + 256 * b1 + 65536 * b2 + 16777216 * b3
  | _ => 0

/-- The byte stream `sendMessage` writes for one payload: length header then
payload. -/
def encodeFrame (payload : List Nat) : List Nat :=
  toLE4 payload.length ++ payload

/-- The `readMessages` loop: extract complete frames from the front of the
buffer; when the header is present but the payload incomplete, retain the
header (unshift) and stop, dropping no bytes. Returns the emitted payloads
and the remaining buffer. -/
def readMessages (buf : List Nat) : List (List Nat) × List Nat :=
  if buf.length < 4 then ([], buf)
  else if (buf.drop 4).length < fromLE4 (buf.take 4) then ([], buf)
  else
    ((buf.drop 4).take (fromLE4 (buf.take 4)) ::
       (readMessages ((buf.drop 4).drop (fromLE4 (buf.take 4)))).1,
     (readMessages ((buf.drop 4).drop (fromLE4 (buf.take 4)))).2)
termination_by buf.length
decreasing_by
  all_goals
    simp only [List.length_drop]
    omega

/-- Deliver the chunks in order, appending each to the buffer and running the
reader after each arrival (the `readable` event). -/
def processChunks (buf : List Nat) : List (List Nat) → List (List Nat) × List Nat
  | [] => ([], buf)
  | c :: cs =>
    let r := readMessages (buf ++ c)
    let rr := processChunks r.2 cs
    (r.1 ++ rr.1, rr.2)

theorem fromLE4_toLE4 (n : Nat) (h : n < 4294967296) : fromLE4 (toLE4 n) = n := by
  simp only [toLE4, fromLE4]
  omega

theorem readMessages_short (buf : List Nat) (h : buf.length < 4) :
    readMessages buf = ([], buf) := by
  rw [readMessages, if_pos h]

/-- A strictly partial frame is retained unchanged: too few header bytes, or a
complete header whose payload has not fully arrived. -/
theorem readMessages_partial (p pre suf : List Nat) (hp : p.length < 4294967296)
    (hsplit : pre ++ suf = encodeFrame p) (hne : suf ≠ []) :
    readMessages pre = ([], pre) := by
  have hsl : 0 < suf.length := List.length_pos.mpr hne
  have hlensum : pre.length + suf.length = 4 + p.length := by
    have h0 := congrArg List.length hsplit
    simp [encodeFrame, toLE4] at h0
    omega
  by_cases h4 : pre.length < 4
  · exact readMessages_short pre h4
  · have htake : pre.take 4 = toLE4 p.length := by
      have h1 : (pre ++ suf).take 4 = toLE4 p.length := by
        rw [hsplit, encodeFrame]
        rw [show (4 : Nat) = (toLE4 p.length).length from rfl]
        exact List.take_left (toLE4 p.length) p
      rw [← h1]
      rw [List.take_append_of_le_length (by omega)]
    rw [readMessages, if_neg h4]
    rw [htake, fromLE4_toLE4 p.length hp]
    rw [if_pos (by simp only [List.length_drop]; omega)]

/-- Extracting from a buffer that starts with one complete frame emits its
payload and continues on the remainder. -/
theorem readMessages_frame (p rest : List Nat) (hp : p.length < 4294967296) :
    readMessages (encodeFrame p ++ rest)
      = (p :: (readMessages rest).1, (readMessages rest).2) := by
  have hlen : (encodeFrame p ++ rest).length = 4 + p.length + rest.length := by
    simp [encodeFrame, toLE4]
    omega
  have htake : (encodeFrame p ++ rest).take 4 = toLE4 p.length := by
    rw [encodeFrame, List.append_assoc]
    rw [show (4 : Nat) = (toLE4 p.length).length from rfl]
    exact List.take_left (toLE4 p.length) (p ++ rest)
  have hdrop : (encodeFrame p ++ rest).drop 4 = p ++ rest := by
    rw [encodeFrame, List.append_assoc]
    rw [show (4 : Nat) = (toLE4 p.length).length from rfl]
    exact List.drop_left (toLE4 p.length) (p ++ rest)
  rw [readMessages, if_neg (by omega)]
  rw [htake, hdrop, fromLE4_toLE4 p.length hp]
  rw [if_neg (by simp only [List.length_drop, List.length_append]; omega)]
  rw [List.take_left p rest, List.drop_left p rest]

/-- Feeding only empty chunks to an empty buffer yields nothing. -/
theorem processChunks_empty (cs : List (List Nat)) (hcs : cs.flatten = []) :
    processChunks [] cs = ([], []) := by
  induction cs with
  | nil => rfl
  | cons c cs ih =>
    have h0 : c = [] ∧ cs.flatten = [] := by simpa using hcs
    rw [h0.1]
    simp only [processChunks, List.nil_append,
      readMessages_short [] (by decide), ih h0.2]

/-- Any in-order chunking whose concatenation is exactly one frame makes the
reader emit exactly that payload and leave an empty buffer. -/
theorem processChunks_single_frame (p : List Nat) (hp : p.length < 4294967296) :
    ∀ (chunks : List (List Nat)) (buf : List Nat),
      buf ++ chunks.flatten = encodeFrame p → buf ≠ encodeFrame p →
      processChunks buf chunks = ([p], []) := by
  intro chunks
  induction chunks with
  | nil =>
    intro buf hj hne
    have hj3 : buf = encodeFrame p := by simpa using hj
    exact absurd hj3 hne
  | cons c cs ih =>
    intro buf hj hne
    have hj2 : (buf ++ c) ++ cs.flatten = encodeFrame p := by
      rw [List.append_assoc, ← List.flatten_cons]
      exact hj
    by_cases hfull : buf ++ c = encodeFrame p
    · have h1 : readMessages (buf ++ c) = ([p], []) := by
        have h2 := readMessages_frame p [] hp
        rw [List.append_nil, readMessages_short [] (by decide)] at h2
        rw [hfull, h2]
      have hcs : cs.flatten = [] := by
        rw [hfull] at hj2
        have h3 := congrArg List.length hj2
        simp only [List.length_append] at h3
        exact List.eq_nil_of_length_eq_zero (by omega)
      simp [processChunks, h1, processChunks_empty cs hcs]
    · have hpre : readMessages (buf ++ c) = ([], buf ++ c) := by
        refine readMessages_partial p (buf ++ c) cs.flatten hp hj2 ?_
        intro h0
        rw [h0, List.append_nil] at hj2
        exact hfull hj2
      simp only [processChunks, hpre, List.nil_append]
      exact ih (buf ++ c) hj2 hfull

/-- Claim C9: for every JSON codec that round-trips (the external
`JSON.stringify`/`JSON.parse` pair on serialisable values), every message m,
and every in-order partition of the framed byte stream into arbitrary chunks,
the reader reconstructs exactly m, retains incomplete frames (header
included) and drops no bytes. -/
theorem C9_frame_chunked_roundtrip {A : Type} (stringifyB : A → List Nat)
    (parseB : List Nat → Option A)
    (hcodec : ∀ a, parseB (stringifyB a) = some a)
    (m : A) (hlen : (stringifyB m).length < 4294967296)
    (chunks : List (List Nat))
    (hchunks : chunks.flatten = encodeFrame (stringifyB m)) :
    ((processChunks [] chunks).1.map parseB = [some m]) ∧
    ((processChunks [] chunks).2 = []) := by
  have hne : ([] : List Nat) ≠ encodeFrame (stringifyB m) := by
    intro h0
    have h1 := congrArg List.length h0
    simp [encodeFrame, toLE4] at h1
  have h := processChunks_single_frame (stringifyB m) hlen chunks []
    (by simpa using hchunks) hne
  rw [h]
  simp [hcodec]

/-- A one-byte codec on Bool, used to witness C9. -/
def boolStringify : Bool → List Nat :=
  fun b => [if b then 1 else 0]

def boolParse : List Nat → Option Bool
  | [1] => some true
  | [0] => some false
  | _ => none

/-- Witness for C9: the frame [1,0,0,0,1] of the value true delivered as the
chunks [1,0] (half a header) and [0,0,1] is reconstructed exactly. -/
theorem C9_frame_chunked_roundtrip_witness :
    ((processChunks [] [[1, 0], [0, 0, 1]]).1.map boolParse = [some true]) ∧
    ((processChunks [] [[1, 0], [0, 0, 1]]).2 = []) :=
  C9_frame_chunked_roundtrip boolStringify boolParse (by decide) true
    (by decide) [[1, 0], [0, 0, 1]] (by decide)

end DaemonWallet
